import Mathlib

/-!
Shallow embedding of the earthquake-dashboard script `src/app_f.py` and
proofs about its filtering, aggregation and bucketing pipeline.

Tables are lists of `Row`; pandas group-by/sort/cut operations are
translated into explicit list functions; magnitudes are rationals and
years are integers.  Streamlit's rerun model is embedded as explicit
state passing (a version counter plus a keyed widget-selection store).
-/

namespace Seismo

/-- one row of the merged earthquake table (`earthquakes_merged_f.csv` as
read by `load_data`): columns `year, magnitude, latitude, longitude, depth,
stations_used, region`.  `region` is nullable (the code calls `dropna` on
it); `latitude`/`longitude` are nullable as well (guarded by `dropna` in
the top-3 computation). -/
structure Row where
  year : ℤ
  magnitude : ℚ
  latitude : Option ℚ
  longitude : Option ℚ
  depth : ℚ
  stations_used : ℤ
  region : Option String
deriving DecidableEq, Repr

/-- finite edges of `mag_bins_dot` in `app_f.py` line 113; the source list
ends with `float("inf")`, so the final bucket `[7.5, ∞)` is unbounded above
and is represented here by the last edge having no successor. -/
def mag_bins_dot : List ℚ := [5, 5.15, 5.35, 5.55, 5.75, 6, 6.15, 6.35, 6.55, 6.75, 7, 7.5]

/-- the twelve labels `mag_labels_dot` of `app_f.py` line 114. -/
def mag_labels_dot : List String :=
  ["5.0–5.1", "5.2–5.3", "5.4–5.5", "5.6–5.7", "5.8–5.9", "6.0–6.1",
   "6.2–6.3", "6.4–6.5", "6.6-6.7", "6.8-6.9", "7.0-7.5", "7.5+"]

/-- `pd.cut(magnitude, bins = mag_bins_dot, labels = mag_labels_dot,
right = False)` from `app_f.py` lines 116-119: half-open buckets
`[low, high)`, final bucket `[7.5, ∞)`; a value below the first edge gets
no label (pandas `NaN`).  Returns the bucket index into `mag_labels_dot`. -/
def magnitude_category (m : ℚ) : Option (Fin 12) :=
  if m < 5 then none
  else if m < 5.15 then some 0
  else if m < 5.35 then some 1
  else if m < 5.55 then some 2
  else if m < 5.75 then some 3
  else if m < 6 then some 4
  else if m < 6.15 then some 5
  else if m < 6.35 then some 6
  else if m < 6.55 then some 7
  else if m < 6.75 then some 8
  else if m < 7 then some 9
  else if m < 7.5 then some 10
  else some 11

/-- membership of magnitude `m` in the `i`-th map bucket: at or above the
`i`-th edge and, unless `i` is the final bucket, below the next edge. -/
def inBucketDot (i : Fin 12) (m : ℚ) : Prop :=
  mag_bins_dot.getD i.val 0 ≤ m ∧ (i.val = 11 ∨ m < mag_bins_dot.getD (i.val + 1) 0)

/-- finite edges of `count_bins_chor` in `app_f.py` line 175 (the source
list ends with `float("inf")`). -/
def count_bins_chor : List ℤ := [-1, 1, 3, 6, 10, 20]

/-- the six labels `count_labels_chor` of `app_f.py` line 176. -/
def count_labels_chor : List String := ["1", "2–3", "4–6", "7–10", "11–20", "21+"]

/-- `pd.cut(count, bins = count_bins_chor, labels = count_labels_chor)`
from `app_f.py` line 177: right-closed buckets `(low, high]`, final bucket
`(20, ∞)`; a value at or below the first edge `-1` gets no label.  Returns
the bucket index into `count_labels_chor`. -/
def count_bin (c : ℕ) : Option (Fin 6) :=
  if (c : ℤ) ≤ -1 then none
  else if (c : ℤ) ≤ 1 then some 0
  else if (c : ℤ) ≤ 3 then some 1
  else if (c : ℤ) ≤ 6 then some 2
  else if (c : ℤ) ≤ 10 then some 3
  else if (c : ℤ) ≤ 20 then some 4
  else some 5

/-- membership of count `c` in the `i`-th choropleth bucket: strictly
above the `i`-th edge and, unless `i` is the final bucket, at or below the
next edge. -/
def inBucketChor (i : Fin 6) (c : ℕ) : Prop :=
  count_bins_chor.getD i.val 0 < (c : ℤ) ∧
    (i.val = 5 ∨ (c : ℤ) ≤ count_bins_chor.getD (i.val + 1) 0)

theorem mag_edges_sorted : List.Sorted (· ≤ ·) mag_bins_dot := by
  simp only [mag_bins_dot, List.sorted_cons, List.mem_cons, List.mem_singleton,
    List.not_mem_nil]
  norm_num

theorem mag_edges_mono (a b : Fin 12) (h : a ≤ b) :
    mag_bins_dot.getD a.val 0 ≤ mag_bins_dot.getD b.val 0 := by
  have ha : a.val < mag_bins_dot.length := by simp [mag_bins_dot]
  have hb : b.val < mag_bins_dot.length := by simp [mag_bins_dot]
  rw [List.getD_eq_getElem _ _ ha, List.getD_eq_getElem _ _ hb]
  rcases Nat.lt_or_ge a.val b.val with hlt | hge
  · exact mag_edges_sorted.rel_get_of_lt hlt
  · have hab : a.val = b.val := by omega
    simp [hab]

theorem mag_cat_cases (m : ℚ) :
    (m < 5 ∧ magnitude_category m = none) ∨
    (∃ i : Fin 12, magnitude_category m = some i ∧ inBucketDot i m) := by
  rcases lt_or_le m 5 with h0 | h0
  · exact Or.inl ⟨h0, by unfold magnitude_category; rw [if_pos h0]⟩
  · refine Or.inr ?_
    rcases lt_or_le m 5.15 with h1 | h1
    · exact ⟨0, by unfold magnitude_category; rw [if_neg (not_lt.mpr h0), if_pos h1], h0, Or.inr h1⟩
    ·
      rcases lt_or_le m 5.35 with h2 | h2
      · exact ⟨1, by unfold magnitude_category; rw [if_neg (not_lt.mpr h0), if_neg (not_lt.mpr h1), if_pos h2], h1, Or.inr h2⟩
      ·
        rcases lt_or_le m 5.55 with h3 | h3
        · exact ⟨2, by unfold magnitude_category; rw [if_neg (not_lt.mpr h0), if_neg (not_lt.mpr h1), if_neg (not_lt.mpr h2), if_pos h3], h2, Or.inr h3⟩
        ·
          rcases lt_or_le m 5.75 with h4 | h4
          · exact ⟨3, by unfold magnitude_category; rw [if_neg (not_lt.mpr h0), if_neg (not_lt.mpr h1), if_neg (not_lt.mpr h2), if_neg (not_lt.mpr h3), if_pos h4], h3, Or.inr h4⟩
          ·
            rcases lt_or_le m 6 with h5 | h5
            · exact ⟨4, by unfold magnitude_category; rw [if_neg (not_lt.mpr h0), if_neg (not_lt.mpr h1), if_neg (not_lt.mpr h2), if_neg (not_lt.mpr h3), if_neg (not_lt.mpr h4), if_pos h5], h4, Or.inr h5⟩
            ·
              rcases lt_or_le m 6.15 with h6 | h6
              · exact ⟨5, by unfold magnitude_category; rw [if_neg (not_lt.mpr h0), if_neg (not_lt.mpr h1), if_neg (not_lt.mpr h2), if_neg (not_lt.mpr h3), if_neg (not_lt.mpr h4), if_neg (not_lt.mpr h5), if_pos h6], h5, Or.inr h6⟩
              ·
                rcases lt_or_le m 6.35 with h7 | h7
                · exact ⟨6, by unfold magnitude_category; rw [if_neg (not_lt.mpr h0), if_neg (not_lt.mpr h1), if_neg (not_lt.mpr h2), if_neg (not_lt.mpr h3), if_neg (not_lt.mpr h4), if_neg (not_lt.mpr h5), if_neg (not_lt.mpr h6), if_pos h7], h6, Or.inr h7⟩
                ·
                  rcases lt_or_le m 6.55 with h8 | h8
                  · exact ⟨7, by unfold magnitude_category; rw [if_neg (not_lt.mpr h0), if_neg (not_lt.mpr h1), if_neg (not_lt.mpr h2), if_neg (not_lt.mpr h3), if_neg (not_lt.mpr h4), if_neg (not_lt.mpr h5), if_neg (not_lt.mpr h6), if_neg (not_lt.mpr h7), if_pos h8], h7, Or.inr h8⟩
                  ·
                    rcases lt_or_le m 6.75 with h9 | h9
                    · exact ⟨8, by unfold magnitude_category; rw [if_neg (not_lt.mpr h0), if_neg (not_lt.mpr h1), if_neg (not_lt.mpr h2), if_neg (not_lt.mpr h3), if_neg (not_lt.mpr h4), if_neg (not_lt.mpr h5), if_neg (not_lt.mpr h6), if_neg (not_lt.mpr h7), if_neg (not_lt.mpr h8), if_pos h9], h8, Or.inr h9⟩
                    ·
                      rcases lt_or_le m 7 with h10 | h10
                      · exact ⟨9, by unfold magnitude_category; rw [if_neg (not_lt.mpr h0), if_neg (not_lt.mpr h1), if_neg (not_lt.mpr h2), if_neg (not_lt.mpr h3), if_neg (not_lt.mpr h4), if_neg (not_lt.mpr h5), if_neg (not_lt.mpr h6), if_neg (not_lt.mpr h7), if_neg (not_lt.mpr h8), if_neg (not_lt.mpr h9), if_pos h10], h9, Or.inr h10⟩
                      ·
                        rcases lt_or_le m 7.5 with h11 | h11
                        · exact ⟨10, by unfold magnitude_category; rw [if_neg (not_lt.mpr h0), if_neg (not_lt.mpr h1), if_neg (not_lt.mpr h2), if_neg (not_lt.mpr h3), if_neg (not_lt.mpr h4), if_neg (not_lt.mpr h5), if_neg (not_lt.mpr h6), if_neg (not_lt.mpr h7), if_neg (not_lt.mpr h8), if_neg (not_lt.mpr h9), if_neg (not_lt.mpr h10), if_pos h11], h10, Or.inr h11⟩
                        ·
                          exact ⟨11, by unfold magnitude_category; rw [if_neg (not_lt.mpr h0), if_neg (not_lt.mpr h1), if_neg (not_lt.mpr h2), if_neg (not_lt.mpr h3), if_neg (not_lt.mpr h4), if_neg (not_lt.mpr h5), if_neg (not_lt.mpr h6), if_neg (not_lt.mpr h7), if_neg (not_lt.mpr h8), if_neg (not_lt.mpr h9), if_neg (not_lt.mpr h10), if_neg (not_lt.mpr h11)], h11, Or.inl rfl⟩

theorem count_bin_cases (c : ℕ) :
    ((c : ℤ) ≤ -1 ∧ count_bin c = none) ∨
    (∃ i : Fin 6, count_bin c = some i ∧ inBucketChor i c) := by
  rcases le_or_lt (c : ℤ) (-1) with h0 | h0
  · exact Or.inl ⟨h0, by unfold count_bin; rw [if_pos h0]⟩
  · refine Or.inr ?_
    rcases le_or_lt (c : ℤ) 1 with h1 | h1
    · exact ⟨0, by unfold count_bin; rw [if_neg (not_le.mpr h0), if_pos h1], h0, Or.inr h1⟩
    ·
      rcases le_or_lt (c : ℤ) 3 with h2 | h2
      · exact ⟨1, by unfold count_bin; rw [if_neg (not_le.mpr h0), if_neg (not_le.mpr h1), if_pos h2], h1, Or.inr h2⟩
      ·
        rcases le_or_lt (c : ℤ) 6 with h3 | h3
        · exact ⟨2, by unfold count_bin; rw [if_neg (not_le.mpr h0), if_neg (not_le.mpr h1), if_neg (not_le.mpr h2), if_pos h3], h2, Or.inr h3⟩
        ·
          rcases le_or_lt (c : ℤ) 10 with h4 | h4
          · exact ⟨3, by unfold count_bin; rw [if_neg (not_le.mpr h0), if_neg (not_le.mpr h1), if_neg (not_le.mpr h2), if_neg (not_le.mpr h3), if_pos h4], h3, Or.inr h4⟩
          ·
            rcases le_or_lt (c : ℤ) 20 with h5 | h5
            · exact ⟨4, by unfold count_bin; rw [if_neg (not_le.mpr h0), if_neg (not_le.mpr h1), if_neg (not_le.mpr h2), if_neg (not_le.mpr h3), if_neg (not_le.mpr h4), if_pos h5], h4, Or.inr h5⟩
            ·
              exact ⟨5, by unfold count_bin; rw [if_neg (not_le.mpr h0), if_neg (not_le.mpr h1), if_neg (not_le.mpr h2), if_neg (not_le.mpr h3), if_neg (not_le.mpr h4), if_neg (not_le.mpr h5)], h5, Or.inl rfl⟩

theorem mag_cat_inBucket {m : ℚ} {i : Fin 12}
    (h : magnitude_category m = some i) : inBucketDot i m := by
  rcases mag_cat_cases m with ⟨_, hn⟩ | ⟨j, hj, hb⟩
  · rw [hn] at h
    exact Option.noConfusion h
  · rw [hj] at h
    obtain rfl := Option.some.inj h
    exact hb

theorem mag_cat_total {m : ℚ} (h5 : 5 ≤ m) :
    ∃ i : Fin 12, magnitude_category m = some i := by
  rcases mag_cat_cases m with ⟨hlt, _⟩ | ⟨j, hj, _⟩
  · exact absurd h5 (not_le.mpr hlt)
  · exact ⟨j, hj⟩

theorem inBucketDot_unique {m : ℚ} {i j : Fin 12}
    (hi : inBucketDot i m) (hj : inBucketDot j m) : i = j := by
  by_contra hne
  have hcase : i.val < j.val ∨ j.val < i.val := by
    rcases Nat.lt_trichotomy i.val j.val with h | h | h
    · exact Or.inl h
    · exact absurd (Fin.ext h) hne
    · exact Or.inr h
  have key : ∀ a b : Fin 12, a.val < b.val → inBucketDot a m → inBucketDot b m → False := by
    intro a b hab ha hb
    have hav : a.val < 11 := by omega
    have hup : m < mag_bins_dot.getD (a.val + 1) 0 := by
      rcases ha.2 with h | h
      · omega
      · exact h
    have hmono := mag_edges_mono ⟨a.val + 1, by omega⟩ b (by
      simp only [Fin.le_def]
      omega)
    have hlow : mag_bins_dot.getD b.val 0 ≤ m := hb.1
    have : m < m := lt_of_lt_of_le hup (le_trans hmono hlow)
    exact absurd this (lt_irrefl m)
  rcases hcase with h | h
  · exact key i j h hi hj
  · exact key j i h hj hi

/-- C1: for every magnitude `m ≥ 5.0`, bucketing with the map bin set
(`mag_bins_dot`, 12 half-open buckets `[low, high)`, final bucket unbounded
above) assigns exactly one of the 12 buckets, and the assigned bucket index
is monotonically non-decreasing in `m`. -/
theorem magnitude_category_total_unique_mono (m m' : ℚ) (h5 : 5 ≤ m) (hmm : m ≤ m') :
    (∃ i : Fin 12, magnitude_category m = some i ∧ ∀ j : Fin 12, inBucketDot j m ↔ j = i) ∧
    (∀ i i' : Fin 12, magnitude_category m = some i → magnitude_category m' = some i' →
      i ≤ i') := by
  constructor
  · obtain ⟨i, hi⟩ := mag_cat_total h5
    refine ⟨i, hi, fun j => ⟨fun hj => inBucketDot_unique hj (mag_cat_inBucket hi), ?_⟩⟩
    intro hj
    subst hj
    exact mag_cat_inBucket hi
  · intro i i' hi hi'
    by_contra hgt
    have hlt : i'.val < i.val := by
      have := Fin.lt_def.mp (lt_of_not_le hgt)
      exact this
    have hbi := mag_cat_inBucket hi
    have hbi' := mag_cat_inBucket hi'
    have hup : m' < mag_bins_dot.getD (i'.val + 1) 0 := by
      rcases hbi'.2 with h | h
      · omega
      · exact h
    have hmono := mag_edges_mono ⟨i'.val + 1, by omega⟩ i (by
      simp only [Fin.le_def]
      omega)
    have : m' < m := lt_of_lt_of_le hup (le_trans hmono hbi.1)
    linarith

/-- concrete check for C1 at `m = 6.2` and a second magnitude `7.6`. -/
theorem magnitude_category_total_unique_mono_inst :
    ((5 : ℚ) ≤ 6.2 ∧ (6.2 : ℚ) ≤ 7.6) ∧
    ((∃ i : Fin 12, magnitude_category 6.2 = some i ∧
        ∀ j : Fin 12, inBucketDot j 6.2 ↔ j = i) ∧
     (∀ i i' : Fin 12, magnitude_category 6.2 = some i →
        magnitude_category 7.6 = some i' → i ≤ i')) :=
  ⟨⟨by norm_num, by norm_num⟩,
   magnitude_category_total_unique_mono 6.2 7.6 (by norm_num) (by norm_num)⟩

theorem chor_edges_mono : ∀ a b : Fin 6, a ≤ b →
    count_bins_chor.getD a.val 0 ≤ count_bins_chor.getD b.val 0 := by decide

theorem chor_inBucket {c : ℕ} {i : Fin 6}
    (h : count_bin c = some i) : inBucketChor i c := by
  rcases count_bin_cases c with ⟨_, hn⟩ | ⟨j, hj, hb⟩
  · rw [hn] at h
    exact Option.noConfusion h
  · rw [hj] at h
    obtain rfl := Option.some.inj h
    exact hb

theorem inBucketChor_unique {c : ℕ} {i j : Fin 6}
    (hi : inBucketChor i c) (hj : inBucketChor j c) : i = j := by
  by_contra hne
  have hcase : i.val < j.val ∨ j.val < i.val := by
    rcases Nat.lt_trichotomy i.val j.val with h | h | h
    · exact Or.inl h
    · exact absurd (Fin.ext h) hne
    · exact Or.inr h
  have key : ∀ a b : Fin 6, a.val < b.val → inBucketChor a c → inBucketChor b c → False := by
    intro a b hab ha hb
    have hav : a.val < 5 := by omega
    have hup : (c : ℤ) ≤ count_bins_chor.getD (a.val + 1) 0 := by
      rcases ha.2 with h | h
      · omega
      · exact h
    have hmono := chor_edges_mono ⟨a.val + 1, by omega⟩ b (by
      simp only [Fin.le_def]
      omega)
    have hlow : count_bins_chor.getD b.val 0 < (c : ℤ) := hb.1
    exact absurd (lt_of_le_of_lt (le_trans hup hmono) hlow) (lt_irrefl (c : ℤ))
  rcases hcase with h | h
  · exact key i j h hi hj
  · exact key j i h hj hi

/-- C2: for every non-negative integer count `c`, `count_bin` assigns
exactly one of the six buckets (labels `1, 2–3, 4–6, 7–10, 11–20, 21+`):
the six right-closed buckets `(-1,1], (1,3], (3,6], (6,10], (10,20],
(20,∞)` partition `[0, ∞)` with no gaps and no overlaps. -/
theorem count_bin_total_unique (c : ℕ) :
    ∃ i : Fin 6, count_bin c = some i ∧ ∀ j : Fin 6, inBucketChor j c ↔ j = i := by
  rcases count_bin_cases c with ⟨hle, _⟩ | ⟨i, hi, hb⟩
  · omega
  · refine ⟨i, hi, fun j => ⟨fun hj => inBucketChor_unique hj hb, ?_⟩⟩
    intro hj
    subst hj
    exact hb


theorem char_toNat_ofNat {n : ℕ} (h : n < 55296) : (Char.ofNat n).toNat = n := by
  have hv : n.isValidChar := Or.inl h
  simp [Char.ofNat, dif_pos hv, Char.ofNatAux, Char.toNat, UInt32.toNat]

theorem char_isAlpha_iff (c : Char) :
    c.isAlpha = true ↔ (65 ≤ c.toNat ∧ c.toNat ≤ 90) ∨ (97 ≤ c.toNat ∧ c.toNat ≤ 122) := by
  simp [Char.isAlpha, Char.isUpper, Char.isLower, Char.toNat,
    UInt32.le_def, BitVec.le_def, UInt32.toNat]

theorem char_toUpper_toNat {c : Char} (h : 97 ≤ c.toNat ∧ c.toNat ≤ 122) :
    c.toUpper.toNat = c.toNat - 32 := by
  rw [Char.toUpper]
  simp only [ge_iff_le, if_pos h]
  exact char_toNat_ofNat (by omega)

theorem char_toUpper_eq_self {c : Char} (h : ¬(97 ≤ c.toNat ∧ c.toNat ≤ 122)) :
    c.toUpper = c := by
  rw [Char.toUpper]
  simp only [ge_iff_le, if_neg h]

theorem char_toLower_toNat {c : Char} (h : 65 ≤ c.toNat ∧ c.toNat ≤ 90) :
    c.toLower.toNat = c.toNat + 32 := by
  rw [Char.toLower]
  simp only [ge_iff_le, if_pos h]
  exact char_toNat_ofNat (by omega)

theorem char_toLower_eq_self {c : Char} (h : ¬(65 ≤ c.toNat ∧ c.toNat ≤ 90)) :
    c.toLower = c := by
  rw [Char.toLower]
  simp only [ge_iff_le, if_neg h]

theorem char_isAlpha_toUpper (c : Char) : c.toUpper.isAlpha = c.isAlpha := by
  by_cases h : 97 ≤ c.toNat ∧ c.toNat ≤ 122
  · have h1 : c.toUpper.toNat = c.toNat - 32 := char_toUpper_toNat h
    have hA : c.toUpper.isAlpha = true := (char_isAlpha_iff _).mpr (Or.inl (by omega))
    have hB : c.isAlpha = true := (char_isAlpha_iff _).mpr (Or.inr h)
    rw [hA, hB]
  · rw [char_toUpper_eq_self h]

theorem char_isAlpha_toLower (c : Char) : c.toLower.isAlpha = c.isAlpha := by
  by_cases h : 65 ≤ c.toNat ∧ c.toNat ≤ 90
  · have h1 : c.toLower.toNat = c.toNat + 32 := char_toLower_toNat h
    have hA : c.toLower.isAlpha = true := (char_isAlpha_iff _).mpr (Or.inr (by omega))
    have hB : c.isAlpha = true := (char_isAlpha_iff _).mpr (Or.inl h)
    rw [hA, hB]
  · rw [char_toLower_eq_self h]

theorem char_toUpper_idem (c : Char) : c.toUpper.toUpper = c.toUpper := by
  by_cases h : 97 ≤ c.toNat ∧ c.toNat ≤ 122
  · have h1 : c.toUpper.toNat = c.toNat - 32 := char_toUpper_toNat h
    exact char_toUpper_eq_self (by omega)
  · rw [char_toUpper_eq_self h, char_toUpper_eq_self h]

theorem char_toLower_idem (c : Char) : c.toLower.toLower = c.toLower := by
  by_cases h : 65 ≤ c.toNat ∧ c.toNat ≤ 90
  · have h1 : c.toLower.toNat = c.toNat + 32 := char_toLower_toNat h
    exact char_toLower_eq_self (by omega)
  · rw [char_toLower_eq_self h, char_toLower_eq_self h]

theorem char_ws_not_alpha {c : Char} (h : c.isWhitespace = true) : c.isAlpha = false := by
  rw [Char.isWhitespace] at h
  simp only [Bool.or_eq_true, decide_eq_true_eq] at h
  rcases h with ((h | h) | h) | h <;> subst h <;> decide



/-- Python `str.title` semantics over a character list. -/
def titleCore : Bool → List Char → List Char
  | _, [] => []
  | b, c :: cs =>
    (if c.isAlpha then (if b then c.toLower else c.toUpper) else c) :: titleCore c.isAlpha cs

def strTitle (l : List Char) : List Char := titleCore false l

def strStrip (l : List Char) : List Char :=
  (l.dropWhile Char.isWhitespace).rdropWhile Char.isWhitespace

def normalize_region (s : String) : String := String.mk (strStrip (strTitle s.data))

theorem titleCore_idem (l : List Char) : ∀ b, titleCore b (titleCore b l) = titleCore b l := by
  induction l with
  | nil => intro b; rfl
  | cons c cs ih =>
    intro b
    by_cases hc : c.isAlpha = true
    · cases b <;>
        simp [titleCore, hc, char_isAlpha_toUpper, char_isAlpha_toLower,
          char_toUpper_idem, char_toLower_idem, ih]
    · have hc' : c.isAlpha = false := by simpa using hc
      simp [titleCore, hc', ih]

theorem titleCore_append (p q : List Char) :
    ∀ b, titleCore b (p ++ q) =
      titleCore b p ++ titleCore (p.foldl (fun _ c => c.isAlpha) b) q := by
  induction p with
  | nil => intro b; rfl
  | cons c cs ih =>
    intro b
    simp [titleCore, List.cons_append, ih]

theorem length_titleCore (l : List Char) : ∀ b, (titleCore b l).length = l.length := by
  induction l with
  | nil => intro b; rfl
  | cons c cs ih => intro b; simp [titleCore, ih]

theorem titleCore_fix_of_pre {l p : List Char} {b : Bool} (hfix : titleCore b l = l)
    (hp : p <+: l) : titleCore b p = p := by
  obtain ⟨q, rfl⟩ := hp
  rw [titleCore_append] at hfix
  exact (List.append_inj hfix (length_titleCore p b)).1

theorem titleCore_ws_append (d : List Char) :
    ∀ t : List Char, (∀ c ∈ t, c.isWhitespace = true) →
      titleCore false (t ++ d) = t ++ titleCore false d := by
  intro t
  induction t with
  | nil => intro _; rfl
  | cons c cs ih =>
    intro ht
    have hca : c.isAlpha = false := char_ws_not_alpha (ht c (by simp))
    simp only [List.cons_append, titleCore, hca, Bool.false_eq_true, if_false, List.append_eq]
    rw [ih (fun x hx => ht x (by simp [hx]))]

theorem titleCore_fix_dropWhile {l : List Char} (hfix : titleCore false l = l) :
    titleCore false (l.dropWhile Char.isWhitespace) = l.dropWhile Char.isWhitespace := by
  have hws : ∀ c ∈ l.takeWhile Char.isWhitespace, c.isWhitespace = true := by
    intro c hc
    exact List.mem_takeWhile_imp hc
  have h1 : l.takeWhile Char.isWhitespace ++ titleCore false (l.dropWhile Char.isWhitespace)
      = l.takeWhile Char.isWhitespace ++ l.dropWhile Char.isWhitespace := by
    rw [← titleCore_ws_append _ _ hws, List.takeWhile_append_dropWhile, hfix]
  exact List.append_cancel_left h1

theorem titleCore_fix_strStrip {y : List Char} (hfix : titleCore false y = y) :
    titleCore false (strStrip y) = strStrip y := by
  unfold strStrip
  exact titleCore_fix_of_pre (titleCore_fix_dropWhile hfix) ( List.rdropWhile_prefix _ _)

theorem strStrip_idem (l : List Char) : strStrip (strStrip l) = strStrip l := by
  unfold strStrip
  have hdw : ((l.dropWhile Char.isWhitespace).rdropWhile Char.isWhitespace).dropWhile
      Char.isWhitespace = (l.dropWhile Char.isWhitespace).rdropWhile Char.isWhitespace := by
    cases hy : l.dropWhile Char.isWhitespace with
    | nil => simp [List.rdropWhile]
    | cons c t =>
      have hne : l.dropWhile Char.isWhitespace ≠ [] := by simp [hy]
      have hc0 : Char.isWhitespace ((l.dropWhile Char.isWhitespace).head hne) =
          false := List.head_dropWhile_not _ _ _
      have hc : Char.isWhitespace c = false := by
        have hh : (l.dropWhile Char.isWhitespace).head hne = c := by simp [hy]
        rw [hh] at hc0
        exact hc0
      rcases hpre : (c :: t).rdropWhile Char.isWhitespace with _ | ⟨c', t'⟩
      · simp
      · have hp : c' :: t' <+: c :: t := by
          rw [← hpre]
          exact List.rdropWhile_prefix _ _
        obtain ⟨rfl, -⟩ := List.cons_prefix_cons.mp hp
        simp [List.dropWhile_cons, hc]
  rw [hdw, List.rdropWhile_idempotent]

theorem normalize_region_idem (s : String) :
    normalize_region (normalize_region s) = normalize_region s := by
  unfold normalize_region strTitle
  show String.mk (strStrip (titleCore false (strStrip (titleCore false s.data)))) =
    String.mk (strStrip (titleCore false s.data))
  rw [titleCore_fix_strStrip (titleCore_idem s.data false), strStrip_idem]

/-- C8: region-name normalization as done for the choropleth input
(`app_f.py` line 173: `.str.title().str.strip()`) is idempotent. -/
theorem normalize_region_idempotent (s : String) :
    normalize_region (normalize_region s) = normalize_region s :=
  normalize_region_idem s


/-- insertion step of the insertion sort modelling the sorts pandas
performs (`sort_values`, sorted group-by keys, `sorted`, `nlargest`):
`a` goes in front of the first element `b` with `le a b`. -/
def insertSorted (le : α → α → Bool) (a : α) : List α → List α
  | [] => [a]
  | b :: l => if le a b then a :: b :: l else b :: insertSorted le a l

/-- insertion sort by a boolean comparator. -/
def sortBy (le : α → α → Bool) : List α → List α
  | [] => []
  | a :: l => insertSorted le a (sortBy le l)

theorem insertSorted_perm (le : α → α → Bool) (a : α) :
    ∀ l : List α, List.Perm (insertSorted le a l) (a :: l) := by
  intro l
  induction l with
  | nil => rfl
  | cons b t ih =>
    unfold insertSorted
    by_cases hab : le a b = true
    · rw [if_pos hab]
    · rw [if_neg hab]
      exact (ih.cons b).trans (List.Perm.swap a b t)

theorem sortBy_perm (le : α → α → Bool) : ∀ l : List α, List.Perm (sortBy le l) l := by
  intro l
  induction l with
  | nil => rfl
  | cons a t ih =>
    exact (insertSorted_perm le a (sortBy le t)).trans (ih.cons a)

theorem sorted_insertSorted (le : α → α → Bool)
    (htot : ∀ a b, le a b = true ∨ le b a = true)
    (htr : ∀ a b c, le a b = true → le b c = true → le a c = true) (a : α) :
    ∀ l, List.Sorted (fun x y => le x y = true) l →
      List.Sorted (fun x y => le x y = true) (insertSorted le a l) := by
  intro l
  induction l with
  | nil =>
    intro _
    simp [insertSorted]
  | cons b t ih =>
    intro hs
    rw [List.sorted_cons] at hs
    obtain ⟨hb, ht⟩ := hs
    unfold insertSorted
    by_cases hab : le a b = true
    · rw [if_pos hab, List.sorted_cons]
      refine ⟨fun y hy => ?_, List.sorted_cons.mpr ⟨hb, ht⟩⟩
      rcases List.mem_cons.mp hy with rfl | hy
      · exact hab
      · exact htr a b y hab (hb y hy)
    · rw [if_neg hab, List.sorted_cons]
      have hba : le b a = true := (htot a b).resolve_left hab
      refine ⟨fun y hy => ?_, ih ht⟩
      have hmem : y ∈ a :: t := (insertSorted_perm le a t).mem_iff.mp hy
      rcases List.mem_cons.mp hmem with h | h
      · subst h
        exact hba
      · exact hb y h

theorem sortBy_sorted (le : α → α → Bool)
    (htot : ∀ a b, le a b = true ∨ le b a = true)
    (htr : ∀ a b c, le a b = true → le b c = true → le a c = true) :
    ∀ l, List.Sorted (fun x y => le x y = true) (sortBy le l) := by
  intro l
  induction l with
  | nil => exact List.sorted_nil
  | cons a t ih => exact sorted_insertSorted le htot htr a _ ih

/-- lexicographic code-point comparison of character lists (the string
order used by python `sorted` on the raw region strings). -/
def charListLe : List Char → List Char → Bool
  | [], _ => true
  | _ :: _, [] => false
  | c :: cs, d :: ds =>
    if c.toNat < d.toNat then true
    else if d.toNat < c.toNat then false
    else charListLe cs ds

def strLeB (a b : String) : Bool := charListLe a.data b.data

def intLeB (a b : ℤ) : Bool := decide (a ≤ b)

/-- descending comparator on magnitudes (`nlargest` order): `a` comes
before `b` when `a` is not smaller. -/
def ratGeB (a b : ℚ) : Bool := !(Rat.blt a b)

/-- one output row of `per_year_df` (`app_f.py` lines 46-52): the year,
its row count, its dominant region and the three largest magnitudes,
missing entries as `none` (pandas `NaN`). -/
structure YearSummary where
  year : ℤ
  amount : ℕ
  top_region : Option String
  m1 : Option ℚ
  m2 : Option ℚ
  m3 : Option ℚ
deriving DecidableEq, Repr

/-- rows of a given year. -/
def rowsOfYear (df : List Row) (y : ℤ) : List Row :=
  df.filter (fun r => r.year == y)

/-- the `top_region` computation of `app_f.py` lines 31-37: drop rows
with missing region, group by (year, region) with counts (group keys
ascending), order regions by descending count and take the first per
year.  The source's `sort_values` tie order among equal counts is
unspecified (quicksort); this model keeps the first region in ascending
name order among those of maximal count. -/
def top_region_of (df : List Row) (y : ℤ) : Option String :=
  let regs := (rowsOfYear df y).filterMap (fun r => r.region)
  let keys := sortBy strLeB regs.dedup
  keys.foldl
    (fun best r =>
      match best with
      | none => some r
      | some b => if regs.count b < regs.count r then some r else best)
    none

/-- the `top_mags` computation of `app_f.py` lines 38-44:
`s.nlargest(3)` = the three largest magnitudes of the year in descending
order. -/
def top_mags_of (df : List Row) (y : ℤ) : List ℚ :=
  (sortBy ratGeB ((rowsOfYear df y).map (fun r => r.magnitude))).take 3

/-- the distinct years of the table in ascending order (pandas
`groupby("year")` key order, then `sort_values("year")`). -/
def yearsSorted (df : List Row) : List ℤ :=
  sortBy intLeB (df.map (fun r => r.year)).dedup

/-- `per_year_df` of `app_f.py` lines 46-52: per distinct year (ascending)
the row count, merged with `top_region` and `top_mags` by year
(`how = "left"`). -/
def per_year_df (df : List Row) : List YearSummary :=
  (yearsSorted df).map (fun y =>
    let mags := top_mags_of df y
    { year := y
      amount := (rowsOfYear df y).length
      top_region := top_region_of df y
      m1 := mags[0]?
      m2 := mags[1]?
      m3 := mags[2]? })

/-- C4: the per-year summary is sorted strictly ascending by year (hence
has no duplicate years). -/
theorem per_year_df_year_sorted_strict (df : List Row) :
    List.Sorted (· < ·) ((per_year_df df).map YearSummary.year) := by
  have hmap : (per_year_df df).map YearSummary.year = yearsSorted df := by
    unfold per_year_df
    rw [List.map_map]
    exact List.map_id _
  rw [hmap]
  have htot : ∀ a b : ℤ, intLeB a b = true ∨ intLeB b a = true := by
    intro a b
    rcases le_total a b with h | h
    · exact Or.inl (by simp [intLeB, h])
    · exact Or.inr (by simp [intLeB, h])
  have htr : ∀ a b c : ℤ, intLeB a b = true → intLeB b c = true → intLeB a c = true := by
    intro a b c hab hbc
    simp only [intLeB, decide_eq_true_eq] at *
    omega
  have hsorted := sortBy_sorted intLeB htot htr (df.map (fun r => r.year)).dedup
  have hle : List.Sorted (· ≤ ·) (yearsSorted df) :=
    List.Pairwise.imp (fun h => by simpa [intLeB] using h) hsorted
  have hnodup : (yearsSorted df).Nodup :=
    ((sortBy_perm intLeB _).nodup_iff).mpr (List.nodup_dedup _)
  exact hle.lt_of_le hnodup

def sampleRow (y : ℤ) (m : ℚ) (r : String) : Row :=
  { year := y, magnitude := m, latitude := some 38, longitude := some 23,
    depth := 10, stations_used := 100, region := some r }

/-- the concrete scenario table of the spec: three identical 2015 Greece
rows of magnitude 6.2 and one 2016 Italy row of magnitude 5.1. -/
def sampleTable : List Row :=
  [sampleRow 2015 6.2 ("Greece"), sampleRow 2015 6.2 ("Greece"),
   sampleRow 2015 6.2 ("Greece"), sampleRow 2016 5.1 ("Italy")]

/-- C3: the per-year summary of the scenario table. -/
theorem per_year_df_sample :
    per_year_df sampleTable =
      [{ year := 2015, amount := 3, top_region := some ("Greece"),
         m1 := some 6.2, m2 := some 6.2, m3 := some 6.2 },
       { year := 2016, amount := 1, top_region := some ("Italy"),
         m1 := some 5.1, m2 := none, m3 := none }] := by with_unfolding_all rfl


/-- the persisted interaction state of the bar-chart widget
(`app_f.py` lines 86-98): the `st.session_state.barchart_version`
counter and the plotly widget's stored click selections, keyed by the
version that was current when the click happened (the widget key is
`year_bar_selection_{version}`). -/
structure UIState where
  barchart_version : ℕ
  store : List (ℕ × ℤ)
deriving DecidableEq, Repr

/-- clicking the bar of year `y`: the widget records the selection under
the current key. -/
def clickYear (s : UIState) (y : ℤ) : UIState :=
  { s with store := (s.barchart_version, y) :: s.store }

/-- pressing the `Show all years` button (`app_f.py` lines 91-93):
`st.session_state.barchart_version += 1` followed by `st.rerun()`. -/
def showAllYears (s : UIState) : UIState :=
  { s with barchart_version := s.barchart_version + 1 }

/-- the selection `plotly_events` reports on a rerun (lines 94-100): the
stored click for the current widget key, if any. -/
def selected_year (s : UIState) : Option ℤ :=
  (s.store.find? (fun e => e.1 == s.barchart_version)).map (fun e => e.2)

/-- `app_f.py` line 101: the whole table when no year is selected, else
the rows of the selected year. -/
def df_filtered (df : List Row) (sel : Option ℤ) : List Row :=
  match sel with
  | none => df
  | some y => df.filter (fun r => r.year == y)

/-- C5: after selecting any year `y` and then pressing `Show all years`,
the version token has moved past every stored widget selection, so the
widget reports no selection and the filtered dataset is the unfiltered
table again (filter then clear ≡ no filter).  The hypothesis is the
session invariant that stored clicks happened at past or present
versions. -/
theorem show_all_restores_unfiltered (df : List Row) (s : UIState) (y : ℤ)
    (hfresh : ∀ k ∈ s.store.map Prod.fst, k ≤ s.barchart_version) :
    selected_year (showAllYears (clickYear s y)) = none ∧
    df_filtered df (selected_year (showAllYears (clickYear s y))) = df := by
  have hsel : selected_year (showAllYears (clickYear s y)) = none := by
    unfold selected_year showAllYears clickYear
    rw [Option.map_eq_none', List.find?_eq_none]
    intro e he
    simp only [beq_iff_eq]
    rcases List.mem_cons.mp he with h | h
    · subst h
      show ¬(s.barchart_version = s.barchart_version + 1)
      omega
    · have hk := hfresh e.1 (List.mem_map_of_mem Prod.fst h)
      omega
  exact ⟨hsel, by rw [hsel]; rfl⟩

/-- concrete check for C5: empty widget store at version `0`, clicking
year `2015`, then `Show all years`. -/
theorem show_all_restores_unfiltered_inst :
    (∀ k ∈ (([] : List (ℕ × ℤ)).map Prod.fst), k ≤ 0) ∧
    (selected_year (showAllYears (clickYear ⟨0, []⟩ 2015)) = none ∧
     df_filtered sampleTable (selected_year (showAllYears (clickYear ⟨0, []⟩ 2015))) =
       sampleTable) :=
  ⟨by simp, show_all_restores_unfiltered sampleTable ⟨0, []⟩ 2015 (by simp)⟩

/-- finite edges of `mag_bins_pie` in `app_f.py` line 250 (the source
list ends with `float("inf")`). -/
def mag_bins_pie : List ℚ := [5, 5.15, 5.35, 5.55, 5.75, 6, 6.15, 6.35, 6.55]

/-- the nine labels `mag_labels_pie` of `app_f.py` line 251. -/
def mag_labels_pie : List String :=
  ["5.0–5.1", "5.2–5.3", "5.4–5.5", "5.6–5.7", "5.8–5.9", "6.0–6.1",
   "6.2–6.3", "6.4–6.5", "6.6+"]

/-- `pd.cut(magnitude, bins = mag_bins_pie, labels = mag_labels_pie,
right = False)` from `app_f.py` line 253: nine half-open buckets, the
final one `[6.55, ∞)`. -/
def mag_cluster (m : ℚ) : Option (Fin 9) :=
  if m < 5 then none
  else if m < 5.15 then some 0
  else if m < 5.35 then some 1
  else if m < 5.55 then some 2
  else if m < 5.75 then some 3
  else if m < 6 then some 4
  else if m < 6.15 then some 5
  else if m < 6.35 then some 6
  else if m < 6.55 then some 7
  else some 8

/-- `regions` of `app_f.py` line 236: `"All"` followed by the sorted
distinct raw (un-normalized) region strings of the currently filtered
table. -/
def regionsOptions (dff : List Row) : List String :=
  ("All") :: sortBy strLeB (dff.filterMap (fun r => r.region)).dedup

/-- `df_pie_filtered` of `app_f.py` lines 245-248: the filtered table
itself for `"All"`, else its rows whose raw region equals the selected
one (rows with missing region never match). -/
def df_pie_filtered (dff : List Row) (region_selected : String) : List Row :=
  if region_selected = "All" then dff
  else dff.filter (fun r => r.region == some region_selected)

/-- `df_pie` of `app_f.py` lines 269-273: group the pie subset by
`mag_cluster` and count (a pandas categorical group-by reports every
category, in category order). -/
def pie_counts (dfp : List Row) : List (Fin 9 × ℕ) :=
  (List.finRange 9).map (fun i =>
    (i, (dfp.filter (fun r => mag_cluster r.magnitude == some i)).length))

/-- outcome of the pie branch of `app_f.py` lines 266-291: either the
`No data for the selected year(s) and region.` warning or a pie chart
built from the grouped counts. -/
inductive PieOutcome where
  | noData
  | chart (counts : List (Fin 9 × ℕ))
deriving DecidableEq, Repr

/-- `app_f.py` lines 266-291: warn when the pie subset is empty,
otherwise build the pie chart. -/
def pie_view (dff : List Row) (region_selected : String) : PieOutcome :=
  let dfp := df_pie_filtered dff region_selected
  if dfp.isEmpty then PieOutcome.noData
  else PieOutcome.chart (pie_counts dfp)

/-- C6: the pie builder signals `noData` exactly when the filtered pie
subset is empty, and produces a chart whenever it is non-empty; it is a
total function, so no exception escapes. -/
theorem pie_view_no_data_iff (dff : List Row) (region_selected : String) :
    (pie_view dff region_selected = PieOutcome.noData ↔
      df_pie_filtered dff region_selected = []) ∧
    (df_pie_filtered dff region_selected ≠ [] →
      pie_view dff region_selected =
        PieOutcome.chart (pie_counts (df_pie_filtered dff region_selected))) := by
  unfold pie_view
  by_cases h : (df_pie_filtered dff region_selected).isEmpty = true
  · rw [if_pos h]
    have he : df_pie_filtered dff region_selected = [] := List.isEmpty_iff.mp h
    exact ⟨⟨fun _ => he, fun _ => rfl⟩, fun hne => absurd he hne⟩
  · rw [if_neg h]
    have hne : df_pie_filtered dff region_selected ≠ [] := by
      intro he
      exact h (List.isEmpty_iff.mpr he)
    exact ⟨⟨fun hc => absurd hc (by simp), fun he => absurd he hne⟩, fun _ => rfl⟩

/-- concrete check for C6: on the scenario table
with region `Malta` the subset is empty and the view signals no data;
with region `All` it is non-empty and a chart is produced. -/
theorem pie_view_no_data_iff_inst :
    (pie_view sampleTable ("Malta") = PieOutcome.noData ↔
      df_pie_filtered sampleTable ("Malta") = []) ∧
    (df_pie_filtered sampleTable ("Malta") ≠ [] →
      pie_view sampleTable ("Malta") =
        PieOutcome.chart (pie_counts (df_pie_filtered sampleTable ("Malta")))) :=
  pie_view_no_data_iff sampleTable ("Malta")

/-- one GeoJSON feature of the tectonic-boundary payload: its geometry
type and its coordinate list (`[lon, lat]` pairs). -/
structure Feature where
  isLineString : Bool
  coords : List (ℚ × ℚ)
deriving DecidableEq, Repr

/-- what the network returned for the boundary fetch: a timeout, a
non-success HTTP status, a body that is not valid JSON, or a parsed
feature list. -/
inductive FetchResult where
  | timeout
  | httpError (status : ℕ)
  | malformedBody
  | ok (features : List Feature)
deriving DecidableEq, Repr

/-- `load_tectonics` of `app_f.py` lines 17-21: `requests.get` with a
timeout raises on timeout, `raise_for_status` raises on a non-success
status (400 and above), `r.json()` raises on a malformed body; each
raised exception is embedded as `Except.error` with its message. -/
def load_tectonics : FetchResult → Except String (List Feature)
  | FetchResult.timeout => Except.error ("timeout")
  | FetchResult.httpError status => Except.error (("HTTP ") ++ toString status)
  | FetchResult.malformedBody => Except.error ("malformed JSON")
  | FetchResult.ok features => Except.ok features

/-- the dot-map chart: the earthquake points it plots and the tectonic
line overlays added to it. -/
structure MapChart where
  points : List Row
  overlays : List (List (ℚ × ℚ))
deriving DecidableEq, Repr

/-- `app_f.py` lines 135-170: build the scatter map from the filtered
table; when the overlay checkbox is on, try to fetch the boundaries and
add one line trace per `LineString` feature, and on any exception show
`st.warning` and keep the chart as it is.  Returns the chart and the
warnings produced. -/
def render_dot_map (dff : List Row) (show_tectonics : Bool) (fetch : FetchResult) :
    MapChart × List String :=
  let base : MapChart := { points := dff, overlays := [] }
  if show_tectonics then
    match load_tectonics fetch with
    | Except.ok features =>
        ({ base with
            overlays := (features.filter (fun f => f.isLineString)).map
              (fun f => f.coords) }, [])
    | Except.error e => (base, [("Could not load tectonic plate data: ") ++ e])
  else (base, [])

/-- C7: whenever the boundary fetch fails (timeout, bad status,
malformed JSON), the failure is caught, exactly one non-fatal warning is
produced, the overlay list stays empty, and the chart still renders with
the earthquake points of the filtered table. -/
theorem fetch_failure_keeps_map (dff : List Row) (fetch : FetchResult) (e : String)
    (h : load_tectonics fetch = Except.error e) :
    render_dot_map dff true fetch =
      ({ points := dff, overlays := [] },
       [("Could not load tectonic plate data: ") ++ e]) ∧
    (render_dot_map dff true fetch).1.points = dff ∧
    (render_dot_map dff true fetch).1.overlays = [] := by
  have hmain : render_dot_map dff true fetch =
      ({ points := dff, overlays := [] },
       [("Could not load tectonic plate data: ") ++ e]) := by
    unfold render_dot_map
    rw [if_pos rfl, h]
  exact ⟨hmain, by rw [hmain], by rw [hmain]⟩

/-- concrete check for C7: the fetch returns
HTTP 500, the overlay is omitted, one warning appears, and the map keeps
the scenario table's points. -/
theorem fetch_failure_keeps_map_inst :
    load_tectonics (FetchResult.httpError 500) = Except.error (("HTTP ") ++ toString 500) ∧
    (render_dot_map sampleTable true (FetchResult.httpError 500) =
      ({ points := sampleTable, overlays := [] },
       [("Could not load tectonic plate data: ") ++ (("HTTP ") ++ toString 500)]) ∧
    (render_dot_map sampleTable true (FetchResult.httpError 500)).1.points = sampleTable ∧
    (render_dot_map sampleTable true (FetchResult.httpError 500)).1.overlays = []) :=
  ⟨rfl, fetch_failure_keeps_map sampleTable (FetchResult.httpError 500) _ rfl⟩

/-- rank used by `top3.sort_values("magnitude_category")` in `app_f.py`
line 215: category order, missing category last. -/
def catRank (r : Row) : ℕ :=
  match magnitude_category r.magnitude with
  | none => 12
  | some i => i.val

/-- `top3` of `app_f.py` lines 209-215: drop rows with missing
latitude/longitude, take the three rows of largest magnitude
(`nlargest`, descending, stable), then sort them by magnitude category. -/
def top3_rows (dff : List Row) : List Row :=
  sortBy (fun a b => decide (catRank a ≤ catRank b))
    ((sortBy (fun a b => ratGeB a.magnitude b.magnitude)
      (dff.filter (fun r => !r.latitude.isNone && !r.longitude.isNone))).take 3)

/-- `by_region` of `app_f.py` lines 172-174: drop rows with missing
region, normalize the names, group by region (keys ascending) and
count. -/
def by_region (dff : List Row) : List (String × ℕ) :=
  let regs := (dff.filterMap (fun r => r.region)).map normalize_region
  (sortBy strLeB regs.dedup).map (fun g => (g, regs.count g))

/-- everything one rerun of the script derives from the table and the
current selection: the bar-chart summary, the dot-map points, the
choropleth counts, the top-3 rows, the region dropdown options and the
pie outcome. -/
structure Outputs where
  per_year : List YearSummary
  dot_points : List Row
  region_counts : List (String × ℕ)
  top3 : List Row
  region_options : List String
  pie : PieOutcome
deriving DecidableEq, Repr

/-- one full rerun of `app_f.py` (lines 31-291) as a function of the
loaded table, the year selection and the region selection. -/
def run_pipeline (df : List Row) (sel : Option ℤ) (region_selected : String) : Outputs :=
  let dff := df_filtered df sel
  { per_year := per_year_df df
    dot_points := dff
    region_counts := by_region dff
    top3 := top3_rows dff
    region_options := regionsOptions dff
    pie := pie_view dff region_selected }

/-- C9: the filtered subset is the whole table when no year is selected
and exactly the rows of the selected year otherwise, and every
downstream aggregate of a rerun reads this filtered subset — except the
bar chart's per-year summary, which always reads the unfiltered
table. -/
theorem pipeline_reads_filtered_subset (df : List Row) (sel : Option ℤ)
    (region_selected : String) :
    (sel = none → df_filtered df sel = df) ∧
    (∀ y, sel = some y →
      ∀ r, r ∈ df_filtered df sel ↔ r ∈ df ∧ r.year = y) ∧
    run_pipeline df sel region_selected =
      { per_year := per_year_df df
        dot_points := df_filtered df sel
        region_counts := by_region (df_filtered df sel)
        top3 := top3_rows (df_filtered df sel)
        region_options := regionsOptions (df_filtered df sel)
        pie := pie_view (df_filtered df sel) region_selected } := by
  refine ⟨fun h => by rw [h]; rfl, fun y hy r => ?_, rfl⟩
  rw [hy]
  show r ∈ df.filter (fun row => row.year == y) ↔ r ∈ df ∧ r.year = y
  rw [List.mem_filter]
  simp only [beq_iff_eq]

/-- concrete check for C9: the scenario table with year `2015`
selected. -/
theorem pipeline_reads_filtered_subset_inst :
    (some (2015 : ℤ) = none → df_filtered sampleTable (some 2015) = sampleTable) ∧
    (∀ y, some (2015 : ℤ) = some y →
      ∀ r, r ∈ df_filtered sampleTable (some 2015) ↔ r ∈ sampleTable ∧ r.year = y) ∧
    run_pipeline sampleTable (some 2015) ("All") =
      { per_year := per_year_df sampleTable
        dot_points := df_filtered sampleTable (some 2015)
        region_counts := by_region (df_filtered sampleTable (some 2015))
        top3 := top3_rows (df_filtered sampleTable (some 2015))
        region_options := regionsOptions (df_filtered sampleTable (some 2015))
        pie := pie_view (df_filtered sampleTable (some 2015)) ("All") } :=
  pipeline_reads_filtered_subset sampleTable (some 2015) ("All")

/-- C10: the region dropdown options and the pie filter both use the raw
(un-normalized) region strings of the currently filtered table — see
`regionsOptions` and `df_pie_filtered`, both built from `Row.region`
directly — so whenever the selected region is one of the non-`All`
options drawn from that table, the pie subset is non-empty and the
no-data branch is unreachable. -/
theorem region_option_pie_nonempty (dff : List Row) (region_selected : String)
    (hmem : region_selected ∈ regionsOptions dff) (hne : region_selected ≠ "All") :
    df_pie_filtered dff region_selected ≠ [] ∧
    pie_view dff region_selected ≠ PieOutcome.noData := by
  have hmem1 : region_selected ∈ sortBy strLeB (dff.filterMap (fun r => r.region)).dedup := by
    rcases List.mem_cons.mp hmem with h | h
    · exact absurd h hne
    · exact h
  have hmem2 : region_selected ∈ dff.filterMap (fun r => r.region) :=
    List.mem_dedup.mp ((sortBy_perm strLeB _).mem_iff.mp hmem1)
  obtain ⟨r, hr, hreg⟩ := List.mem_filterMap.mp hmem2
  have hfil : r ∈ dff.filter (fun row => row.region == some region_selected) := by
    rw [List.mem_filter]
    exact ⟨hr, by simp [hreg]⟩
  have hne2 : df_pie_filtered dff region_selected ≠ [] := by
    unfold df_pie_filtered
    rw [if_neg hne]
    exact List.ne_nil_of_mem hfil
  refine ⟨hne2, ?_⟩
  unfold pie_view
  rw [if_neg (fun hc => hne2 (List.isEmpty_iff.mp hc))]
  simp

/-- concrete check for C10: `Greece` is a
dropdown option of the scenario table and its pie subset is
non-empty. -/
theorem region_option_pie_nonempty_inst :
    ("Greece" ∈ regionsOptions sampleTable ∧ ("Greece" : String) ≠ "All") ∧
    (df_pie_filtered sampleTable ("Greece") ≠ [] ∧
     pie_view sampleTable ("Greece") ≠ PieOutcome.noData) :=
  ⟨⟨by with_unfolding_all decide, by decide⟩,
   region_option_pie_nonempty sampleTable ("Greece") (by with_unfolding_all decide)
     (by decide)⟩

end Seismo
